import Mathlib

/-!
Verification development for the unused-standalone-imports validation rule
(packages/compiler-cli/src/ngtsc/validation/src/rules/unused_standalone_imports_rule.ts).

The rule is embedded shallowly: the TypeScript syntax tree is not rebuilt in
full; instead each function receives exactly the structure it inspects.
Upward parent walks over the tree become folds over an explicit list of
ancestor nodes (innermost first).  External collaborators (the template type
checker, the imported-symbols tracker, the Reference provenance queries and
the diagnostics constructors) are modelled as data supplied by the
environment, following the external-interface section of the design
document.
-/

/-- Configuration option unusedStandaloneImports, one of suppress, warn, error. -/
inductive Config where
  | suppress
  | warn
  | error
deriving DecidableEq, Repr

/-- ts.DiagnosticCategory, restricted to the two values the rule produces. -/
inductive Category where
  | error
  | warning
deriving DecidableEq, Repr

/-- Modelled from the spec: the diagnostics module (not under src) supplies
the error code UNUSED_STANDALONE_IMPORTS used by this rule. -/
inductive ErrorCode where
  | UNUSED_STANDALONE_IMPORTS
deriving DecidableEq, Repr

/-- A node on the upward walk of isPotentialSharedReference: either a
variable statement (recording whether it carries the export modifier) or any
other kind of node. -/
inductive ScopeNode where
  | varStatement (exported : Bool)
  | other
deriving DecidableEq, Repr

/-- Whether a scope node is a variable statement (ts.isVariableStatement). -/
def ScopeNode.isVarStatement : ScopeNode → Bool
  | ScopeNode.varStatement _ => true
  | ScopeNode.other => false

/-- A node on the upward walk of getDiagnosticNode: either a property
assignment (recording the key text and the id of the key node, current.name)
or any other kind of node. -/
inductive AncNode where
  | propertyAssignment (key : String) (nameNode : Nat)
  | other
deriving DecidableEq, Repr

/-- Whether an ancestor node is a property assignment (ts.isPropertyAssignment). -/
def AncNode.isPropAssign : AncNode → Bool
  | AncNode.propertyAssignment _ _ => true
  | AncNode.other => false

/-- The raw imports expression (metadata.rawImports): its own node id and its
chain of parent nodes, innermost first, as consumed by getDiagnosticNode. -/
structure RawImports where
  selfNode : Nat
  ancestors : List AncNode
deriving DecidableEq, Repr

/-- Modelled from the spec: a Reference (imports package, not under src) is a
provenance-carrying handle to a class declaration.  node is the declaration
node id, nameNode is ref.node.name.  getIdentityInExpression answers whether
the reference is spelled literally inside the raw imports expression.
identityChain models getIdentityIn(sourceFile) together with the chain of
nodes enclosing that identity node, innermost first: none when no identity
node is found in the file.  getOriginForDiagnostics models the synonymous
method, taking the raw imports expression and the fallback node. -/
structure Reference where
  node : Nat
  nameNode : Nat
  getIdentityInExpression : RawImports → Option Nat
  identityChain : Option (List ScopeNode)
  getOriginForDiagnostics : RawImports → Nat → Nat

/-- Directive metadata as consulted by getUnusedSymbols. -/
structure DirectiveMeta where
  isStandalone : Bool
deriving DecidableEq, Repr

/-- Pipe metadata as consulted by getUnusedSymbols. -/
structure PipeMeta where
  isStandalone : Bool
  name : String
deriving DecidableEq, Repr

/-- The component metadata (TypeCheckableDirectiveMeta) fields the rule reads. -/
structure TCDirectiveMeta where
  isStandalone : Bool
  rawImports : Option RawImports
  imports : Option (List Reference)

/-- Modelled from the spec: the template type checker (external collaborator)
resolves a class-declaration node id to directive or pipe metadata. -/
structure Env where
  getDirectiveMetadata : Nat → Option DirectiveMeta
  getPipeMetadata : Nat → Option PipeMeta

/-- Modelled from the spec: the imported-symbols tracker (external
collaborator), specialised to one source file. -/
structure ImportedSymbolsTracker where
  hasNamedImport : String → String → Bool
  hasNamespaceImport : String → Bool

/-- Related-information entry of a diagnostic. -/
structure RelatedInfo where
  node : Nat
  messageText : String
deriving DecidableEq, Repr

/-- The diagnostic value produced by the rule: error code, anchor node,
message, optional related-information entries, and severity category. -/
structure Diagnostic where
  code : ErrorCode
  node : Nat
  messageText : String
  relatedInfo : Option (List RelatedInfo)
  category : Category
deriving DecidableEq, Repr

/-- Modelled from the spec: makeRelatedInformation (diagnostics module, not
under src) pairs a node with a message text. -/
def makeRelatedInformation (node : Nat) (messageText : String) : RelatedInfo :=
  { node := node, messageText := messageText }

/-- Modelled from the spec: makeDiagnostic (diagnostics module, not under
src) assembles a diagnostic from code, anchor node, message, optional
related information and category. -/
def makeDiagnostic (code : ErrorCode) (node : Nat) (messageText : String)
    (relatedInfo : Option (List RelatedInfo)) (category : Category) : Diagnostic :=
  { code := code, node := node, messageText := messageText,
    relatedInfo := relatedInfo, category := category }

/-- The inputs checkNode reads off its ts.Node argument through the template
type checker: whether the node is a class declaration, its directive
metadata, and the used-directive node ids and used-pipe names (each none
when the checker cannot determine them). -/
structure CheckNodeInput where
  isClassDeclaration : Bool
  metadata : Option TCDirectiveMeta
  usedDirectives : Option (List Nat)
  usedPipes : Option (List String)

/-- The while loop of isPotentialSharedReference: walk the chain of nodes
enclosing the identity node outward; the first variable statement decides
the answer by its export modifier; an exhausted chain yields true. -/
def sharedWalk : List ScopeNode → Bool
  | [] => true
  | ScopeNode.varStatement exported :: _ => exported
  | ScopeNode.other :: rest => sharedWalk rest

/-- UnusedStandaloneImportsRule.isPotentialSharedReference: a reference
spelled literally in the raw imports expression is never shared; otherwise
the walk from its identity node in the file decides, and a missing identity
node means shared. -/
def isPotentialSharedReference (reference : Reference) (rawImports : RawImports) : Bool :=
  match reference.getIdentityInExpression rawImports with
  | some _ => false
  | none =>
    match reference.identityChain with
    | none => true
    | some chain => sharedWalk chain

/-- The per-reference flagging test of the getUnusedSymbols loop body:
directive metadata is consulted first; pipe metadata only when there is no
directive metadata; references resolving to neither are not flagged. -/
def refFlagged (env : Env) (usedDirectives : List Nat) (usedPipes : List String)
    (rawImports : RawImports) (current : Reference) : Bool :=
  match env.getDirectiveMetadata current.node with
  | some dirMeta =>
    dirMeta.isStandalone && !(usedDirectives.contains current.node)
      && !(isPotentialSharedReference current rawImports)
  | none =>
    match env.getPipeMetadata current.node with
    | some pipeMeta =>
      pipeMeta.isStandalone && !(usedPipes.contains pipeMeta.name)
        && !(isPotentialSharedReference current rawImports)
    | none => false

/-- UnusedStandaloneImportsRule.getUnusedSymbols: the loop pushes flagged
references in declaration order onto an accumulator that starts as null and
becomes a list at the first push, so the result is none exactly when no
reference was flagged. -/
def getUnusedSymbols (env : Env) (metadata : TCDirectiveMeta)
    (usedDirectives : List Nat) (usedPipes : List String) : Option (List Reference) :=
  match metadata.imports, metadata.rawImports with
  | some imports, some rawImports =>
    let unused := imports.filter (refFlagged env usedDirectives usedPipes rawImports)
    if unused.isEmpty then none else some unused
  | _, _ => none

/-- The while loop of getDiagnosticNode over the explicit ancestor chain:
the first property assignment yields its key node, otherwise the walk falls
through to the imports expression itself. -/
def anchorWalk (importsExpression : Nat) : List AncNode → Nat
  | [] => importsExpression
  | AncNode.propertyAssignment _ nameNode :: _ => nameNode
  | AncNode.other :: rest => anchorWalk importsExpression rest

/-- UnusedStandaloneImportsRule.getDiagnosticNode. -/
def getDiagnosticNode (importsExpression : RawImports) : Nat :=
  anchorWalk importsExpression.selfNode importsExpression.ancestors

/-- The anchor walk as the specification words it: stop only at a property
assignment whose key is the string imports; declared for comparison with
anchorWalk, which the source implements. -/
def anchorWalkSpec (importsExpression : Nat) : List AncNode → Nat
  | [] => importsExpression
  | AncNode.propertyAssignment key nameNode :: rest =>
    if key = "imports" then nameNode else anchorWalkSpec importsExpression rest
  | AncNode.other :: rest => anchorWalkSpec importsExpression rest

/-- getDiagnosticNode as the specification words it, for comparison. -/
def getDiagnosticNodeSpec (importsExpression : RawImports) : Nat :=
  anchorWalkSpec importsExpression.selfNode importsExpression.ancestors

/-- UnusedStandaloneImportsRule.shouldCheck. -/
def shouldCheck (cfg : Config) (tracker : ImportedSymbolsTracker) : Bool :=
  decide (cfg ≠ Config.suppress)
    && (tracker.hasNamedImport "Component" "@angular/core"
      || tracker.hasNamespaceImport "@angular/core")

/-- UnusedStandaloneImportsRule.checkNode, with the guard order of the
source: class-declaration test, metadata presence, the combined standalone
and imports checks, then the used-directives and used-pipes presence. -/
def checkNode (cfg : Config) (env : Env) (node : CheckNodeInput) : Option Diagnostic :=
  if !node.isClassDeclaration then none
  else
    match node.metadata with
    | none => none
    | some metadata =>
      if !metadata.isStandalone then none
      else
        match metadata.rawImports with
        | none => none
        | some rawImports =>
          match metadata.imports with
          | none => none
          | some imports =>
            if imports.length == 0 then none
            else
              match node.usedDirectives, node.usedPipes with
              | some usedDirectives, some usedPipes =>
                match getUnusedSymbols env metadata usedDirectives usedPipes with
                | none => none
                | some unused =>
                  if unused.length = imports.length then
                    some (makeDiagnostic ErrorCode.UNUSED_STANDALONE_IMPORTS
                      (getDiagnosticNode rawImports) "All imports are unused" none
                      (if cfg = Config.error then Category.error else Category.warning))
                  else
                    some (makeDiagnostic ErrorCode.UNUSED_STANDALONE_IMPORTS
                      (getDiagnosticNode rawImports) "Imports array contains unused imports"
                      (some (unused.map (fun ref =>
                        makeRelatedInformation
                          (ref.getOriginForDiagnostics rawImports ref.nameNode) "")))
                      (if cfg = Config.error then Category.error else Category.warning))
              | _, _ => none

/-- An exhausted scope chain without any variable statement yields true. -/
lemma sharedWalk_eq_true_of_no_var (chain : List ScopeNode)
    (h : ∀ a ∈ chain, a.isVarStatement = false) : sharedWalk chain = true := by
  induction chain with
  | nil => rfl
  | cons a rest ih =>
    cases a with
    | varStatement e => simpa [ScopeNode.isVarStatement] using h _ (List.mem_cons_self _ _)
    | other =>
      show sharedWalk rest = true
      exact ih (fun b hb => h b (List.mem_cons_of_mem _ hb))

/-- The walk stops at the first variable statement and returns its export flag. -/
lemma sharedWalk_append_first_var (pre suf : List ScopeNode) (e : Bool)
    (h : ∀ a ∈ pre, a.isVarStatement = false) :
    sharedWalk (pre ++ ScopeNode.varStatement e :: suf) = e := by
  induction pre with
  | nil => rfl
  | cons a rest ih =>
    cases a with
    | varStatement e2 => simpa [ScopeNode.isVarStatement] using h _ (List.mem_cons_self _ _)
    | other =>
      show sharedWalk (rest ++ ScopeNode.varStatement e :: suf) = e
      exact ih (fun b hb => h b (List.mem_cons_of_mem _ hb))

/-- The anchor walk returns the key node of the first property assignment in
the ancestor chain when one exists, and the expression itself otherwise. -/
lemma anchorWalk_first_propAssign (self : Nat) (l : List AncNode) :
    (∃ pre key nameNode suf,
      l = pre ++ AncNode.propertyAssignment key nameNode :: suf ∧
      (∀ a ∈ pre, a.isPropAssign = false) ∧
      anchorWalk self l = nameNode)
    ∨ ((∀ a ∈ l, a.isPropAssign = false) ∧ anchorWalk self l = self) := by
  induction l with
  | nil => exact Or.inr ⟨by simp, rfl⟩
  | cons a rest ih =>
    cases a with
    | propertyAssignment key nameNode =>
      exact Or.inl ⟨[], key, nameNode, rest, rfl, by simp, rfl⟩
    | other =>
      have hstep : anchorWalk self (AncNode.other :: rest) = anchorWalk self rest := rfl
      rcases ih with ⟨pre, key, nameNode, suf, heq, hpre, hval⟩ | ⟨hall, hval⟩
      · refine Or.inl ⟨AncNode.other :: pre, key, nameNode, suf, by rw [heq]; rfl, ?_, hstep.trans hval⟩
        intro b hb
        rcases List.mem_cons.mp hb with hb | hb
        · subst hb; rfl
        · exact hpre b hb
      · refine Or.inr ⟨?_, hstep.trans hval⟩
        intro b hb
        rcases List.mem_cons.mp hb with hb | hb
        · subst hb; rfl
        · exact hall b hb

/-- Claim C3: the shared-reference heuristic returns false for a reference
spelled literally in the raw-imports expression; otherwise the first
enclosing variable statement decides by its export modifier; an exhausted
chain, or a missing identity node, yields shared. -/
theorem c3_shared_reference_heuristic (reference : Reference) (rawImports : RawImports) :
    (∀ n, reference.getIdentityInExpression rawImports = some n →
      isPotentialSharedReference reference rawImports = false)
    ∧ (reference.getIdentityInExpression rawImports = none →
        reference.identityChain = none →
        isPotentialSharedReference reference rawImports = true)
    ∧ (∀ chain, reference.getIdentityInExpression rawImports = none →
        reference.identityChain = some chain →
        (∀ pre e suf, chain = pre ++ ScopeNode.varStatement e :: suf →
          (∀ a ∈ pre, a.isVarStatement = false) →
          isPotentialSharedReference reference rawImports = e)
        ∧ ((∀ a ∈ chain, a.isVarStatement = false) →
          isPotentialSharedReference reference rawImports = true)) := by
  refine ⟨?_, ?_, ?_⟩
  · intro n hn
    simp [isPotentialSharedReference, hn]
  · intro h1 h2
    simp [isPotentialSharedReference, h1, h2]
  · intro chain h1 h2
    constructor
    · intro pre e suf hchain hpre
      subst hchain
      simp [isPotentialSharedReference, h1, h2, sharedWalk_append_first_var pre suf e hpre]
    · intro hall
      simp [isPotentialSharedReference, h1, h2, sharedWalk_eq_true_of_no_var chain hall]

/-- A reference originating from an exported variable statement behind one
intermediate node, used to instantiate the heuristic theorems. -/
def refExported : Reference :=
  { node := 1, nameNode := 2,
    getIdentityInExpression := fun _ => none,
    identityChain := some [ScopeNode.other, ScopeNode.varStatement true],
    getOriginForDiagnostics := fun _ fallback => fallback }

/-- An empty raw-imports expression context for concrete instantiations. -/
def riW : RawImports := { selfNode := 0, ancestors := [] }

theorem c3_shared_reference_heuristic_witness :
    isPotentialSharedReference refExported riW = true :=
  ((c3_shared_reference_heuristic refExported riW).2.2
    [ScopeNode.other, ScopeNode.varStatement true] rfl rfl).1
    [ScopeNode.other] true [] rfl (by decide)

/-- Claim C10: for a reference not spelled in the raw-imports expression but
with an identity chain, the innermost variable statement alone decides the
classification; the conclusion does not depend on the chain beyond it. -/
theorem c10_first_var_statement_decides (reference : Reference) (rawImports : RawImports)
    (pre suf : List ScopeNode) (e : Bool)
    (h0 : reference.getIdentityInExpression rawImports = none)
    (h1 : reference.identityChain = some (pre ++ ScopeNode.varStatement e :: suf))
    (h2 : ∀ a ∈ pre, a.isVarStatement = false) :
    isPotentialSharedReference reference rawImports = e := by
  simp [isPotentialSharedReference, h0, h1, sharedWalk_append_first_var pre suf e h2]

/-- A reference whose innermost enclosing variable statement is unexported
while an enclosing outer variable statement is exported. -/
def refInnerLocal : Reference :=
  { node := 3, nameNode := 4,
    getIdentityInExpression := fun _ => none,
    identityChain := some [ScopeNode.varStatement false, ScopeNode.varStatement true],
    getOriginForDiagnostics := fun _ fallback => fallback }

theorem c10_first_var_statement_decides_witness :
    isPotentialSharedReference refInnerLocal riW = false :=
  c10_first_var_statement_decides refInnerLocal riW [] [ScopeNode.varStatement true] false
    rfl rfl (by decide)

/-- Claim C6: shouldCheck is true exactly when the configuration is not
suppress and the file has a named import of Component or a namespace import
from the angular core module. -/
theorem c6_shouldCheck_iff (cfg : Config) (tracker : ImportedSymbolsTracker) :
    shouldCheck cfg tracker = true ↔
      (cfg ≠ Config.suppress ∧
        (tracker.hasNamedImport "Component" "@angular/core" = true ∨
          tracker.hasNamespaceImport "@angular/core" = true)) := by
  simp [shouldCheck]

/-- Claim C1: getUnusedSymbols flags a reference exactly under the directive
clause (standalone, not used, not shared) or the pipe clause (no directive
metadata; standalone, name not used, not shared); references resolving to
neither are never flagged; the flagged sequence is an order-preserving
subsequence of the declared imports; and the result is none exactly when
nothing is flagged, never an empty sequence. -/
theorem c1_getUnusedSymbols_characterization (env : Env)
    (usedDirectives : List Nat) (usedPipes : List String)
    (metadata : TCDirectiveMeta) (imports : List Reference) (rawImports : RawImports)
    (him : metadata.imports = some imports) (hri : metadata.rawImports = some rawImports) :
    (∀ r, refFlagged env usedDirectives usedPipes rawImports r = true ↔
      ((∃ dm, env.getDirectiveMetadata r.node = some dm ∧ dm.isStandalone = true ∧
          ¬ r.node ∈ usedDirectives ∧ isPotentialSharedReference r rawImports = false)
       ∨ (env.getDirectiveMetadata r.node = none ∧
          ∃ pm, env.getPipeMetadata r.node = some pm ∧ pm.isStandalone = true ∧
            ¬ pm.name ∈ usedPipes ∧ isPotentialSharedReference r rawImports = false)))
    ∧ (∀ r, env.getDirectiveMetadata r.node = none → env.getPipeMetadata r.node = none →
        refFlagged env usedDirectives usedPipes rawImports r = false)
    ∧ getUnusedSymbols env metadata usedDirectives usedPipes =
        (if (imports.filter (refFlagged env usedDirectives usedPipes rawImports)).isEmpty
          then none
          else some (imports.filter (refFlagged env usedDirectives usedPipes rawImports)))
    ∧ (∀ u, getUnusedSymbols env metadata usedDirectives usedPipes = some u →
        u.Sublist imports ∧ u ≠ [] ∧
          ∀ r, r ∈ u ↔ (r ∈ imports ∧ refFlagged env usedDirectives usedPipes rawImports r = true))
    ∧ (getUnusedSymbols env metadata usedDirectives usedPipes = none ↔
        ∀ r ∈ imports, refFlagged env usedDirectives usedPipes rawImports r = false) := by
  have heq : getUnusedSymbols env metadata usedDirectives usedPipes =
      (if (imports.filter (refFlagged env usedDirectives usedPipes rawImports)).isEmpty
        then none
        else some (imports.filter (refFlagged env usedDirectives usedPipes rawImports))) := by
    simp [getUnusedSymbols, him, hri]
  refine ⟨?_, ?_, heq, ?_, ?_⟩
  · intro r
    cases hd : env.getDirectiveMetadata r.node with
    | some dm => simp [refFlagged, hd, Bool.and_eq_true, and_assoc]
    | none =>
      cases hp : env.getPipeMetadata r.node with
      | some pm => simp [refFlagged, hd, hp, Bool.and_eq_true, and_assoc]
      | none => simp [refFlagged, hd, hp]
  · intro r h1 h2
    simp [refFlagged, h1, h2]
  · intro u hu
    rw [heq] at hu
    by_cases hemp : (imports.filter (refFlagged env usedDirectives usedPipes rawImports)).isEmpty
    · rw [if_pos hemp] at hu
      cases hu
    · rw [if_neg hemp] at hu
      have hu' := (Option.some.inj hu).symm
      subst hu'
      refine ⟨List.filter_sublist imports, ?_, ?_⟩
      · intro hnil
        rw [hnil] at hemp
        exact hemp rfl
      · intro r
        exact List.mem_filter
  · rw [heq]
    by_cases hemp : (imports.filter (refFlagged env usedDirectives usedPipes rawImports)).isEmpty
    · rw [if_pos hemp]
      simp only [true_iff]
      intro r hr
      by_contra hflag
      have hmem : r ∈ imports.filter (refFlagged env usedDirectives usedPipes rawImports) :=
        List.mem_filter.mpr ⟨hr, by simpa using hflag⟩
      rw [List.isEmpty_iff.mp hemp] at hmem
      exact absurd hmem (List.not_mem_nil r)
    · rw [if_neg hemp]
      simp only [reduceCtorEq, false_iff]
      intro hall
      apply hemp
      rw [List.isEmpty_iff]
      rw [List.filter_eq_nil_iff]
      intro a ha
      simp [hall a ha]

/-- A reference spelled literally inside the raw-imports expression. -/
def refLitW : Reference :=
  { node := 1, nameNode := 2,
    getIdentityInExpression := fun _ => some 9,
    identityChain := none,
    getOriginForDiagnostics := fun _ fallback => fallback }

/-- An environment where node 1 is a standalone directive and nothing else
resolves. -/
def envW : Env :=
  { getDirectiveMetadata := fun n => if n = 1 then some { isStandalone := true } else none,
    getPipeMetadata := fun _ => none }

/-- Component metadata declaring the single import refLitW. -/
def metaW : TCDirectiveMeta :=
  { isStandalone := true, rawImports := some riW, imports := some [refLitW] }

theorem c1_getUnusedSymbols_characterization_witness :
    getUnusedSymbols envW metaW [] [] = some [refLitW] := by
  have h := (c1_getUnusedSymbols_characterization envW [] [] metaW [refLitW] riW rfl rfl).2.2.1
  rw [h]
  rfl

/-- Inversion for getUnusedSymbols: a some result comes from present imports
and raw-imports metadata, and is the nonempty filter of the declared list. -/
lemma getUnusedSymbols_some_inv (env : Env) (metadata : TCDirectiveMeta)
    (usedDirectives : List Nat) (usedPipes : List String) (u : List Reference)
    (h : getUnusedSymbols env metadata usedDirectives usedPipes = some u) :
    ∃ imports rawImports,
      metadata.imports = some imports ∧ metadata.rawImports = some rawImports ∧
      u = imports.filter (refFlagged env usedDirectives usedPipes rawImports) ∧
      u ≠ [] ∧ u.Sublist imports := by
  unfold getUnusedSymbols at h
  split at h
  next imports rawImports him hri =>
    simp only at h
    split at h
    · cases h
    next hemp =>
      have hu := (Option.some.inj h).symm
      subst hu
      refine ⟨imports, rawImports, him, hri, rfl, ?_, List.filter_sublist imports⟩
      intro hnil
      rw [hnil] at hemp
      exact hemp rfl
  next =>
    cases h

/-- Inversion for checkNode: a produced diagnostic certifies every
precondition and is the branch of the builder selected by comparing the
unused count with the declared count. -/
lemma checkNode_some_inv (cfg : Config) (env : Env) (node : CheckNodeInput) (d : Diagnostic)
    (h : checkNode cfg env node = some d) :
    ∃ metadata rawImports imports usedDirectives usedPipes unused,
      node.isClassDeclaration = true ∧
      node.metadata = some metadata ∧
      metadata.isStandalone = true ∧
      metadata.rawImports = some rawImports ∧
      metadata.imports = some imports ∧
      imports.length ≠ 0 ∧
      node.usedDirectives = some usedDirectives ∧
      node.usedPipes = some usedPipes ∧
      getUnusedSymbols env metadata usedDirectives usedPipes = some unused ∧
      unused ≠ [] ∧ unused.Sublist imports ∧
      d = (if unused.length = imports.length then
            makeDiagnostic ErrorCode.UNUSED_STANDALONE_IMPORTS (getDiagnosticNode rawImports)
              "All imports are unused" none
              (if cfg = Config.error then Category.error else Category.warning)
          else
            makeDiagnostic ErrorCode.UNUSED_STANDALONE_IMPORTS (getDiagnosticNode rawImports)
              "Imports array contains unused imports"
              (some (unused.map (fun ref =>
                makeRelatedInformation (ref.getOriginForDiagnostics rawImports ref.nameNode) "")))
              (if cfg = Config.error then Category.error else Category.warning)) := by
  unfold checkNode at h
  split at h
  · cases h
  next hcls =>
    split at h
    · cases h
    next metadata hmeta =>
      split at h
      · cases h
      next hsa =>
        split at h
        · cases h
        next rawImports hri =>
          split at h
          · cases h
          next imports him =>
            split at h
            · cases h
            next hlen =>
              split at h
              next usedDirectives usedPipes hud hup =>
                split at h
                · cases h
                next unused hu =>
                  obtain ⟨imports2, rawImports2, him2, hri2, hfil, hne, hsub⟩ :=
                    getUnusedSymbols_some_inv env metadata usedDirectives usedPipes unused hu
                  have himp : imports2 = imports := Option.some.inj (him2.symm.trans him)
                  subst himp
                  refine ⟨metadata, rawImports, imports2, usedDirectives, usedPipes, unused,
                    by simpa using hcls, hmeta, by simpa using hsa, hri, him,
                    by simpa using hlen, hud, hup, hu, hne, hsub, ?_⟩
                  split at h
                  next hl =>
                    rw [if_pos hl]
                    exact (Option.some.inj h).symm
                  next hl =>
                    rw [if_neg hl]
                    exact (Option.some.inj h).symm
              next h1 h2 hne2 =>
                cases h

/-- Claim C4: past the preconditions, a fully unused imports list yields the
all-unused diagnostic with no related entries, and a partially unused list
yields the contains-unused diagnostic with one empty-message related entry
per unused reference in declaration order, anchored through the origin query
with the reference name node as fallback. -/
theorem c4_diagnostic_builder (cfg : Config) (env : Env) (node : CheckNodeInput)
    (metadata : TCDirectiveMeta) (imports : List Reference) (rawImports : RawImports)
    (usedDirectives : List Nat) (usedPipes : List String) (unused : List Reference)
    (hcls : node.isClassDeclaration = true)
    (hmeta : node.metadata = some metadata)
    (hsa : metadata.isStandalone = true)
    (hri : metadata.rawImports = some rawImports)
    (him : metadata.imports = some imports)
    (hlen : imports.length ≠ 0)
    (hud : node.usedDirectives = some usedDirectives)
    (hup : node.usedPipes = some usedPipes)
    (hu : getUnusedSymbols env metadata usedDirectives usedPipes = some unused) :
    checkNode cfg env node =
      (if unused.length = imports.length then
        some (makeDiagnostic ErrorCode.UNUSED_STANDALONE_IMPORTS (getDiagnosticNode rawImports)
          "All imports are unused" none
          (if cfg = Config.error then Category.error else Category.warning))
      else
        some (makeDiagnostic ErrorCode.UNUSED_STANDALONE_IMPORTS (getDiagnosticNode rawImports)
          "Imports array contains unused imports"
          (some (unused.map (fun ref =>
            makeRelatedInformation (ref.getOriginForDiagnostics rawImports ref.nameNode) "")))
          (if cfg = Config.error then Category.error else Category.warning))) := by
  simp only [checkNode, hcls, hmeta, hsa, hri, him, hud, hup, hu, Bool.not_true,
    Bool.false_eq_true, if_false]
  simp [hlen]

/-- All-unused input data: a class declaration importing only refLitW, with
empty used sets. -/
def inpW : CheckNodeInput :=
  { isClassDeclaration := true, metadata := some metaW,
    usedDirectives := some [], usedPipes := some [] }

theorem c4_diagnostic_builder_witness :
    checkNode Config.warn envW inpW =
      some (makeDiagnostic ErrorCode.UNUSED_STANDALONE_IMPORTS (getDiagnosticNode riW)
        "All imports are unused" none Category.warning) := by
  have h := c4_diagnostic_builder Config.warn envW inpW metaW [refLitW] riW [] [] [refLitW]
    rfl rfl rfl rfl rfl (by decide) rfl rfl rfl
  rw [h]
  rfl

/-- Claim C5: every unmet precondition makes checkNode return none: not a
class declaration, absent metadata, non-standalone, absent raw-imports
expression, absent or empty import list, or undeterminable used-directive or
used-pipe sets; the embedding is a total function, so no path raises. -/
theorem c5_preconditions_no_diagnostic (cfg : Config) (env : Env) (node : CheckNodeInput) :
    (node.isClassDeclaration = false → checkNode cfg env node = none)
    ∧ (node.metadata = none → checkNode cfg env node = none)
    ∧ (∀ m, node.metadata = some m → m.isStandalone = false → checkNode cfg env node = none)
    ∧ (∀ m, node.metadata = some m → m.rawImports = none → checkNode cfg env node = none)
    ∧ (∀ m, node.metadata = some m → m.imports = none → checkNode cfg env node = none)
    ∧ (∀ m, node.metadata = some m → m.imports = some [] → checkNode cfg env node = none)
    ∧ (node.usedDirectives = none → checkNode cfg env node = none)
    ∧ (node.usedPipes = none → checkNode cfg env node = none) := by
  refine ⟨?_, ?_, ?_, ?_, ?_, ?_, ?_, ?_⟩
  · intro hf
    cases hc : checkNode cfg env node with
    | none => rfl
    | some d =>
      obtain ⟨m, ri, im, ud, up, u, h1, _⟩ := checkNode_some_inv cfg env node d hc
      rw [hf] at h1
      cases h1
  · intro hf
    cases hc : checkNode cfg env node with
    | none => rfl
    | some d =>
      obtain ⟨m, ri, im, ud, up, u, _, h2, _⟩ := checkNode_some_inv cfg env node d hc
      rw [hf] at h2
      cases h2
  · intro m hm hf
    cases hc : checkNode cfg env node with
    | none => rfl
    | some d =>
      obtain ⟨m2, ri, im, ud, up, u, _, h2, h3, _⟩ := checkNode_some_inv cfg env node d hc
      have hm2 : m2 = m := Option.some.inj (h2.symm.trans hm)
      subst hm2
      rw [hf] at h3
      cases h3
  · intro m hm hf
    cases hc : checkNode cfg env node with
    | none => rfl
    | some d =>
      obtain ⟨m2, ri, im, ud, up, u, _, h2, _, h4, _⟩ := checkNode_some_inv cfg env node d hc
      have hm2 : m2 = m := Option.some.inj (h2.symm.trans hm)
      subst hm2
      rw [hf] at h4
      cases h4
  · intro m hm hf
    cases hc : checkNode cfg env node with
    | none => rfl
    | some d =>
      obtain ⟨m2, ri, im, ud, up, u, _, h2, _, _, h5, _⟩ := checkNode_some_inv cfg env node d hc
      have hm2 : m2 = m := Option.some.inj (h2.symm.trans hm)
      subst hm2
      rw [hf] at h5
      cases h5
  · intro m hm hf
    cases hc : checkNode cfg env node with
    | none => rfl
    | some d =>
      obtain ⟨m2, ri, im, ud, up, u, _, h2, _, _, h5, h6, _⟩ := checkNode_some_inv cfg env node d hc
      have hm2 : m2 = m := Option.some.inj (h2.symm.trans hm)
      subst hm2
      rw [hf] at h5
      have him : im = [] := Option.some.inj h5.symm
      rw [him] at h6
      exact absurd rfl h6
  · intro hf
    cases hc : checkNode cfg env node with
    | none => rfl
    | some d =>
      obtain ⟨m, ri, im, ud, up, u, _, _, _, _, _, _, h7, _⟩ := checkNode_some_inv cfg env node d hc
      rw [hf] at h7
      cases h7
  · intro hf
    cases hc : checkNode cfg env node with
    | none => rfl
    | some d =>
      obtain ⟨m, ri, im, ud, up, u, _, _, _, _, _, _, _, h8, _⟩ := checkNode_some_inv cfg env node d hc
      rw [hf] at h8
      cases h8

/-- A node that is not a class declaration at all. -/
def inpNotClass : CheckNodeInput :=
  { isClassDeclaration := false, metadata := none, usedDirectives := none, usedPipes := none }

theorem c5_preconditions_no_diagnostic_witness :
    checkNode Config.warn envW inpNotClass = none :=
  (c5_preconditions_no_diagnostic Config.warn envW inpNotClass).1 rfl

/-- Claim C7: a produced diagnostic has error severity under the error
configuration and warning severity under the warn configuration. -/
theorem c7_severity (cfg : Config) (env : Env) (node : CheckNodeInput) (d : Diagnostic)
    (h : checkNode cfg env node = some d) :
    (cfg = Config.error → d.category = Category.error)
    ∧ (cfg = Config.warn → d.category = Category.warning) := by
  obtain ⟨m, ri, im, ud, up, u, _, _, _, _, _, _, _, _, _, _, _, hd⟩ :=
    checkNode_some_inv cfg env node d h
  constructor
  · intro hcfg
    subst hcfg
    by_cases hl : u.length = im.length
    · rw [if_pos hl] at hd
      rw [hd]
      rfl
    · rw [if_neg hl] at hd
      rw [hd]
      rfl
  · intro hcfg
    subst hcfg
    by_cases hl : u.length = im.length
    · rw [if_pos hl] at hd
      rw [hd]
      rfl
    · rw [if_neg hl] at hd
      rw [hd]
      rfl

/-- The all-unused diagnostic produced for inpW under the error configuration. -/
def dAllErrW : Diagnostic :=
  makeDiagnostic ErrorCode.UNUSED_STANDALONE_IMPORTS (getDiagnosticNode riW)
    "All imports are unused" none Category.error

theorem c7_severity_witness : dAllErrW.category = Category.error :=
  (c7_severity Config.error envW inpW dAllErrW rfl).1 rfl

/-- Claim C9: every produced diagnostic, in either variant, carries the
UNUSED_STANDALONE_IMPORTS code and the anchor computed by getDiagnosticNode
on the raw-imports expression. -/
theorem c9_code_and_anchor (cfg : Config) (env : Env) (node : CheckNodeInput) (d : Diagnostic)
    (h : checkNode cfg env node = some d) :
    d.code = ErrorCode.UNUSED_STANDALONE_IMPORTS ∧
    ∀ metadata rawImports, node.metadata = some metadata →
      metadata.rawImports = some rawImports → d.node = getDiagnosticNode rawImports := by
  obtain ⟨m, ri, im, ud, up, u, _, h2, _, h4, _, _, _, _, _, _, _, hd⟩ :=
    checkNode_some_inv cfg env node d h
  constructor
  · rfl
  · intro metadata rawImports hmeta hri
    have hm : m = metadata := Option.some.inj (h2.symm.trans hmeta)
    subst hm
    have hr : ri = rawImports := Option.some.inj (h4.symm.trans hri)
    subst hr
    by_cases hl : u.length = im.length
    · rw [if_pos hl] at hd
      rw [hd]
      rfl
    · rw [if_neg hl] at hd
      rw [hd]
      rfl

/-- The all-unused diagnostic produced for inpW under the warn configuration. -/
def dAllW : Diagnostic :=
  makeDiagnostic ErrorCode.UNUSED_STANDALONE_IMPORTS (getDiagnosticNode riW)
    "All imports are unused" none Category.warning

theorem c9_code_and_anchor_witness :
    dAllW.code = ErrorCode.UNUSED_STANDALONE_IMPORTS ∧ dAllW.node = getDiagnosticNode riW :=
  ⟨(c9_code_and_anchor Config.warn envW inpW dAllW rfl).1,
    (c9_code_and_anchor Config.warn envW inpW dAllW rfl).2 metaW riW rfl rfl⟩

/-- Claim C8: whenever checkNode produces the contains-unused diagnostic,
its related entries number at least one and strictly fewer than the
declared count of imports. -/
theorem c8_partial_related_count (cfg : Config) (env : Env) (node : CheckNodeInput)
    (d : Diagnostic) (metadata : TCDirectiveMeta) (imports : List Reference)
    (h : checkNode cfg env node = some d)
    (hmeta : node.metadata = some metadata)
    (him : metadata.imports = some imports)
    (hmsg : d.messageText = "Imports array contains unused imports") :
    ∃ rel, d.relatedInfo = some rel ∧ 0 < rel.length ∧ rel.length < imports.length := by
  obtain ⟨m, ri, im, ud, up, u, _, h2, _, _, h5, _, _, _, _, hne, hsub, hd⟩ :=
    checkNode_some_inv cfg env node d h
  have hm : m = metadata := Option.some.inj (h2.symm.trans hmeta)
  subst hm
  have him2 : im = imports := Option.some.inj (h5.symm.trans him)
  subst him2
  by_cases hl : u.length = im.length
  · rw [if_pos hl] at hd
    rw [hd] at hmsg
    simp [makeDiagnostic] at hmsg
  · rw [if_neg hl] at hd
    subst hd
    refine ⟨_, rfl, ?_, ?_⟩
    · rw [List.length_map]
      exact List.length_pos.mpr hne
    · rw [List.length_map]
      exact lt_of_le_of_ne (List.Sublist.length_le hsub) hl

/-- A second declared import that the template does use. -/
def refUsedW : Reference :=
  { node := 5, nameNode := 6,
    getIdentityInExpression := fun _ => some 10,
    identityChain := none,
    getOriginForDiagnostics := fun _ fallback => fallback }

/-- An environment resolving nodes 1 and 5 to standalone directives. -/
def envW2 : Env :=
  { getDirectiveMetadata := fun n =>
      if n = 1 ∨ n = 5 then some { isStandalone := true } else none,
    getPipeMetadata := fun _ => none }

/-- Metadata declaring both refLitW and refUsedW. -/
def metaW2 : TCDirectiveMeta :=
  { isStandalone := true, rawImports := some riW, imports := some [refLitW, refUsedW] }

/-- Input whose template uses only the directive of node 5. -/
def inpW2 : CheckNodeInput :=
  { isClassDeclaration := true, metadata := some metaW2,
    usedDirectives := some [5], usedPipes := some [] }

/-- The partial-unused diagnostic produced for inpW2. -/
def dPartialW : Diagnostic :=
  makeDiagnostic ErrorCode.UNUSED_STANDALONE_IMPORTS (getDiagnosticNode riW)
    "Imports array contains unused imports" (some [makeRelatedInformation 2 ""])
    Category.warning

theorem c8_partial_related_count_witness :
    ∃ rel, dPartialW.relatedInfo = some rel ∧ 0 < rel.length ∧ rel.length < 2 :=
  c8_partial_related_count Config.warn envW2 inpW2 dPartialW metaW2 [refLitW, refUsedW]
    rfl rfl rfl rfl

/-- Claim C2 (amended): the anchor of every produced diagnostic is computed
by getDiagnosticNode on the raw-imports expression, which walks the ancestor
chain upward and returns the key node of the first property assignment
regardless of its key text, falling back to the raw-imports expression when
no property-assignment ancestor exists. -/
theorem c2_anchor_first_property_assignment (cfg : Config) (env : Env)
    (node : CheckNodeInput) (d : Diagnostic)
    (metadata : TCDirectiveMeta) (rawImports : RawImports)
    (h : checkNode cfg env node = some d)
    (hmeta : node.metadata = some metadata)
    (hri : metadata.rawImports = some rawImports) :
    d.node = getDiagnosticNode rawImports ∧
    ((∃ pre key nameNode suf,
        rawImports.ancestors = pre ++ AncNode.propertyAssignment key nameNode :: suf ∧
        (∀ a ∈ pre, a.isPropAssign = false) ∧
        getDiagnosticNode rawImports = nameNode)
      ∨ ((∀ a ∈ rawImports.ancestors, a.isPropAssign = false) ∧
        getDiagnosticNode rawImports = rawImports.selfNode)) := by
  constructor
  · obtain ⟨m, ri, im, ud, up, u, _, h2, _, h4, _, _, _, _, _, _, _, hd⟩ :=
      checkNode_some_inv cfg env node d h
    have hm : m = metadata := Option.some.inj (h2.symm.trans hmeta)
    subst hm
    have hr : ri = rawImports := Option.some.inj (h4.symm.trans hri)
    subst hr
    by_cases hl : u.length = im.length
    · rw [if_pos hl] at hd
      rw [hd]
      rfl
    · rw [if_neg hl] at hd
      rw [hd]
      rfl
  · exact anchorWalk_first_propAssign rawImports.selfNode rawImports.ancestors

theorem c2_anchor_first_property_assignment_witness :
    dAllW.node = getDiagnosticNode riW :=
  (c2_anchor_first_property_assignment Config.warn envW inpW dAllW metaW riW rfl rfl rfl).1

/-- A raw-imports expression whose nearest property-assignment ancestor has
a key other than the string imports, with an imports-keyed property
assignment further out. -/
def riC2 : RawImports :=
  { selfNode := 0,
    ancestors := [AncNode.propertyAssignment "styles" 5,
      AncNode.propertyAssignment "imports" 7] }

/-- Metadata identical to metaW but anchored under riC2. -/
def metaC2 : TCDirectiveMeta :=
  { isStandalone := true, rawImports := some riC2, imports := some [refLitW] }

/-- Input producing a diagnostic whose raw-imports expression is riC2. -/
def inpC2 : CheckNodeInput :=
  { isClassDeclaration := true, metadata := some metaC2,
    usedDirectives := some [], usedPipes := some [] }

theorem c2_anchor_counterexample :
    (checkNode Config.warn envW inpC2).map Diagnostic.node = some 5 ∧
    getDiagnosticNodeSpec riC2 = 7 ∧ (5 : Nat) ≠ 7 := by
  refine ⟨rfl, ?_, by decide⟩
  rfl

/-- A file importing Component by name from the angular core module. -/
def trackerW : ImportedSymbolsTracker :=
  { hasNamedImport := fun name modName => name = "Component" && modName = "@angular/core",
    hasNamespaceImport := fun _ => false }

theorem c6_shouldCheck_iff_witness : shouldCheck Config.warn trackerW = true :=
  (c6_shouldCheck_iff Config.warn trackerW).mpr
    (by refine ⟨by decide, Or.inl ?_⟩; rfl)
